import Mathlib

/-!
Verification of `payments/coin_handlers/EOS/EOSMixin.py` (cryptotoken-converter).

Shallow embedding conventions:
* Python `str` is embedded as Lean `String`; indexing operations (`s[0]`,
  `s[1:]`, `s[-1]`, `s[:-1]`) act on the character list `String.data`,
  matching Python strings being sequences of characters.
* Python `dict` values keyed by coin symbol are embedded as association
  lists `List (String × _)` with `List.lookup`; a subscript `d[k]` on an
  absent key raises `KeyError`, while `d.get(k)` yields `None` (`Option`).
* Python exceptions are a result type `Except PyExc _`; exception messages
  are elided, only the exception class matters to the properties checked.
* `None` is `Option.none`; a settings value that may be `None` or absent is
  an `Option` field.
-/

namespace EOSMixin

/-- Exception classes that can escape the functions modelled here.
`generalExc` stands for a bare `Exception`. Messages are elided. -/
inductive PyExc where
  | keyError
  | attributeError
  | tokenNotFound
  | missingTokenMetadata
  | doesNotExist
  | generalExc
deriving DecidableEq, Repr

/-- Embedding of Python `str.upper()` (character-wise uppercasing; the
symbols involved are ASCII, for which `Char.toUpper` agrees with Python). -/
def pyUpper (s : String) : String := ⟨s.data.map Char.toUpper⟩

/-- Embedding of Python `'{}'.format(x)` on a value that may be `None`:
`None` prints as the four characters `None`. -/
def pyStr : Option String → String
  | none => "None"
  | some s => s

/-- A resolved per-symbol settings record: the keys of `setting_defaults`
(EOSMixin.py lines 76-79) plus the optional `contract` key that per-token
custom JSON may add.  `username`/`password` default to `None`. -/
structure CoinSettings where
  host : String := "eos.greymass.com"
  username : Option String := none
  password : Option String := none
  endpoint : String := "/"
  port : Nat := 443
  ssl : Bool := true
  precision : Nat := 4
  telos : Bool := false
  history_url : String := "https://eos-history.privex.io"
  load_method : String := "actions"
  contract : Option String := none
deriving DecidableEq, Repr

/-- `EOSMixin.setting_defaults` (lines 76-79): all fields at their class
defaults, and no `contract` key. -/
def setting_defaults : CoinSettings := {}

/-- `EOSMixin.chain_coin = 'EOS'` (line 71). -/
def chain_coin : String := "EOS"

/-- `EOSMixin.chain = 'eos'` (line 60). -/
def chain : String := "eos"

/-- `EOSMixin.chain_type = chain` (line 66). -/
def chain_type : String := chain

/-- A `**conn` keyword-argument mapping for `_make_url` / `replace_eos`:
any subset of the recognized connection keys may be supplied (`none` =
key absent).  Supplying `username=None`/`password=None` explicitly is
extensionally the same as omitting the key, because the dict merge
`{**setting_defaults, **conn}` then produces the default `None` either
way, so both are represented by `none`. -/
structure ConnOverrides where
  host : Option String := none
  username : Option String := none
  password : Option String := none
  endpoint : Option String := none
  port : Option Nat := none
  ssl : Option Bool := none
deriving DecidableEq, Repr

/-- The connection-relevant projection of the merged dict
`s = {**self.setting_defaults, **conn}` (line 214): supplied values win,
missing keys fall back to `setting_defaults`. -/
structure MergedConn where
  host : String
  username : Option String
  password : Option String
  endpoint : String
  port : Nat
  ssl : Bool
deriving DecidableEq, Repr

/-- `{**self.setting_defaults, **conn}` (line 214), restricted to the keys
`_make_url` reads.  For `username`/`password` the default is `None`, so the
merged value is exactly the override field. -/
def mergeConn (conn : ConnOverrides) : MergedConn where
  host := conn.host.getD setting_defaults.host
  username := conn.username
  password := conn.password
  endpoint := conn.endpoint.getD setting_defaults.endpoint
  port := conn.port.getD setting_defaults.port
  ssl := conn.ssl.getD setting_defaults.ssl

/-- `EOSMixin._make_url(**conn)` (lines 200-227).

```python
s = {**self.setting_defaults, **conn}
url = s['endpoint']
proto = 'https' if s['ssl'] else 'http'
host = '{}:{}'.format(s['host'], s['port'])
if s['username'] is not None:
    host = '{}:{}@{}:{}'.format(s['username'], s['password'], s['host'], s['port'])
url = url[1:] if len(url) > 0 and url[0] == '/' else url
url = "{}://{}/{}".format(proto, host, url)
url = url[:-1] if url[-1] == '/' else url
return url
```

The final `url[-1]` is applied to the `format` result, which is never
empty, so the indexing never raises and `getLast?` captures it exactly.
Each step of the function body is a named definition below; `make_url`
composes them in source order. -/
def make_url_host (s : MergedConn) : String :=
  match s.username with
  | none => s.host ++ ":" ++ Nat.repr s.port
  | some u => u ++ ":" ++ pyStr s.password ++ "@" ++ s.host ++ ":" ++ Nat.repr s.port

/-- `url = url[1:] if len(url) > 0 and url[0] == '/' else url` (line 223). -/
def strip_leading_slash (url : String) : String :=
  if 0 < url.data.length ∧ url.data.head? = some '/' then ⟨url.data.drop 1⟩ else url

/-- `url = url[:-1] if url[-1] == '/' else url` (line 226). -/
def strip_trailing_slash (url : String) : String :=
  if url.data.getLast? = some '/' then ⟨url.data.dropLast⟩ else url

/-- `EOSMixin._make_url(**conn)` (lines 200-227): see the block comment
above `make_url_host`. -/
def make_url (conn : ConnOverrides) : String :=
  let s := mergeConn conn
  let proto := if s.ssl then "https" else "http"
  let host := make_url_host s
  let url := strip_leading_slash s.endpoint
  strip_trailing_slash (proto ++ "://" ++ host ++ "/" ++ url)

/-- Modelled from the spec: the `empty` helper imported from
`steemengine.helpers` (not under src/) — true exactly for `None` and the
empty string ("If found and its `contract` field is non-empty, return it
immediately"). -/
def empty : Option String → Bool
  | none => true
  | some s => s == ""

/-- `EOSMixin.default_contracts` (lines 92-94). -/
def default_contracts : List (String × String) := [("EOS", "eosio.token")]

/-- `EOSMixin.get_contract(symbol)` (lines 229-268), parameterized by the
resolved settings mapping (`self.settings`, a `dict` of per-symbol settings
dicts) and by the fallback table (`self.default_contracts`).

```python
symbol = symbol.upper()
try:
    contract = self.settings[symbol].get('contract')
    if not empty(contract):
        return contract
except AttributeError:
    raise TokenNotFound(...)
try:
    contract = self.default_contracts[symbol]
    if empty(contract):
        raise MissingTokenMetadata
    return contract
except (AttributeError, MissingTokenMetadata):
    raise MissingTokenMetadata(...)
```

Python semantics embedded here: `self.settings[symbol]` on an absent key
raises `KeyError`, which `except AttributeError` does NOT catch, so it
propagates; since every value of the resolved settings mapping is a dict,
`.get('contract')` never raises `AttributeError` and the `TokenNotFound`
branch is unreachable.  Likewise `self.default_contracts[symbol]` on an
absent key raises `KeyError`, which `except (AttributeError,
MissingTokenMetadata)` does not catch.  The bare `raise
MissingTokenMetadata` on an empty fallback value IS caught by that clause
and re-raised as `MissingTokenMetadata(...)`. -/
def get_contract (settings : List (String × CoinSettings))
    (defaultContracts : List (String × String)) (symbol : String) :
    Except PyExc String :=
  let symbolU := pyUpper symbol
  match List.lookup symbolU settings with
  | none => .error .keyError
  | some coinSettings =>
    let contract := coinSettings.contract
    if empty contract = false then
      .ok (contract.getD "")
    else
      match List.lookup symbolU defaultContracts with
      | none => .error .keyError
      | some fb =>
        if empty (some fb) then .error .missingTokenMetadata else .ok fb

/-- `EOSMixin.eos_settings` (lines 151-158): `settings.get(chain_coin,
setting_defaults)` over the resolved settings mapping; total, never
raises. -/
def eos_settings (settings : List (String × CoinSettings)) : CoinSettings :=
  (List.lookup chain_coin settings).getD setting_defaults

/-- The full-record keyword expansion `**self.eos_settings` as passed to
`_make_url` (line 198): every connection key is present, so the merge with
`setting_defaults` reproduces exactly these values (a `None`
username/password merges to the default `None`, represented as `none`). -/
def coinSettingsToConn (cs : CoinSettings) : ConnOverrides where
  host := some cs.host
  username := cs.username
  password := cs.password
  endpoint := some cs.endpoint
  port := some cs.port
  ssl := some cs.ssl

/-- Instance state of the mixin relevant to the client cache.

`_eos` models the `_eos` INSTANCE attribute: `none` means no instance
attribute exists and reads see the class attribute `None` (line 103);
`some h` means the instance attribute holds a live `Cleos` handle.
Handles are identified by allocation order: `nextHandle` is the identity
the next `Cleos(url=...)` construction will return, so distinct
constructions yield distinct (reference-unequal) handles.
`settings` is the resolved settings mapping the external `SettingsMixin`
collaborator would return for this instance. -/
structure EOSState where
  _eos : Option Nat
  current_rpc : Option String
  nextHandle : Nat
  settings : List (String × CoinSettings)
deriving DecidableEq, Repr

/-- A freshly constructed mixin: `__init__` (lines 109-110) sets
`current_rpc = None`; no `_eos` instance attribute exists yet and no
handle was ever allocated. -/
def initState (settings : List (String × CoinSettings)) : EOSState :=
  { _eos := none, current_rpc := none, nextHandle := 0, settings := settings }

/-- `EOSMixin.url` property (lines 195-198):
`self._make_url(**self.eos_settings)`. -/
def url (s : EOSState) : String :=
  make_url (coinSettingsToConn (eos_settings s.settings))

/-- `EOSMixin.eos` property (lines 160-167).

```python
if not self._eos:
    self.current_rpc = self.url
    self._eos = Cleos(url=self.url)
return self._eos
```

When no instance attribute exists, `self._eos` reads the class attribute
`None`, which is falsy, so a handle is built and cached; otherwise the
cached handle is returned with no state change.  Returns the (possibly
updated) state together with the handle. -/
def eos (s : EOSState) : EOSState × Nat :=
  match s._eos with
  | some h => (s, h)
  | none =>
    ({ s with current_rpc := some (url s), _eos := some s.nextHandle,
              nextHandle := s.nextHandle + 1 }, s.nextHandle)

/-- `EOSMixin.replace_eos(**conn)` (lines 169-193).

```python
del self._eos
url = self._make_url(**conn)
self.current_rpc = url
self._eos = Cleos(url=url)
return self._eos
```

`del self._eos` deletes the INSTANCE attribute; when only the class
attribute `_eos = None` exists (no handle was ever cached on this
instance) it raises `AttributeError` before any URL is built, leaving the
state unchanged — modelled by returning the input state with the error.
On success the URL comes from `_make_url(**conn)`, i.e. `conn` merged over
the static `setting_defaults` only; the resolved settings in `s.settings`
are not consulted. -/
def replace_eos (conn : ConnOverrides) (s : EOSState) :
    EOSState × Except PyExc Nat :=
  match s._eos with
  | none => (s, .error .attributeError)
  | some _ =>
    ({ s with current_rpc := some (make_url conn), _eos := some s.nextHandle,
              nextHandle := s.nextHandle + 1 }, .ok s.nextHandle)

/-- A persisted `Coin` record, reduced to the fields `all_coins` reads:
`symbol` and the alternate identifier `symbol_id`. -/
structure Coin where
  symbol : String
  symbol_id : String
deriving DecidableEq, Repr

/-- Which of the duck-typed attributes the instance carries (`hasattr`
probing in `all_coins`, lines 121-126): a loader has `self.coins`
(a dict keyed by symbol), a manager has `self.coin` (a single Coin),
or neither. -/
inductive CoinSource where
  | coins (cs : List (String × Coin))
  | coin (c : Coin)
  | neither
deriving DecidableEq, Repr

/-- The initial coin dict `c` built by `all_coins` before the native-coin
injection (lines 120-126): `dict(self.coins)`, or
`{self.coin.symbol_id: self.coin}`, or `raise Exception(...)`. -/
def initialCoins (src : CoinSource) : Except PyExc (List (String × Coin)) :=
  match src with
  | .coins cs => .ok cs
  | .coin c => .ok [(c.symbol_id, c)]
  | .neither => .error .generalExc

/-- `EOSMixin.all_coins` property (lines 112-138), parameterized by the two
persistence lookups: `dbSymbol sym ty` models
`Coin.objects.get(symbol=sym, coin_type=ty)` and `dbSymbolId` models
`Coin.objects.get(symbol_id=sym, coin_type=ty)`; `none` models
`Coin.DoesNotExist`.  The first lookup's `DoesNotExist` is caught and the
second lookup is tried; a `DoesNotExist` from the second propagates
uncaught.  A new key is appended (`c[coin] = ...` on a dict adds the key
at the end). -/
def all_coins (src : CoinSource) (dbSymbol dbSymbolId : String → String → Option Coin) :
    Except PyExc (List (String × Coin)) :=
  match initialCoins src with
  | .error e => .error e
  | .ok c =>
    if (List.lookup chain_coin c).isSome then .ok c
    else
      match dbSymbol chain_coin chain_type with
      | some coin => .ok (c ++ [(chain_coin, coin)])
      | none =>
        match dbSymbolId chain_coin chain_type with
        | some coin => .ok (c ++ [(chain_coin, coin)])
        | none => .error .doesNotExist

/-! ### Helper lemmas

Facts about the embedding types used by several claim proofs: string data
of appends, decimal digits of `Nat.repr` (the embedded `str(port)`), and
the behaviour of the slash-stripping steps of `_make_url`. -/

theorem strData_append (a b : String) : (a ++ b).data = a.data ++ b.data := rfl

theorem strExt (a b : String) (h : a.data = b.data) : a = b := by
  cases a; cases b; cases h; rfl

theorem digitChar_lt_ten_ne_slash : ∀ m : Nat, m < 10 → Nat.digitChar m ≠ '/' := by
  decide

theorem toDigitsCore_ne_slash (fuel : Nat) :
    ∀ (n : Nat) (ds : List Char), (∀ c ∈ ds, c ≠ '/') →
      ∀ c ∈ Nat.toDigitsCore 10 fuel n ds, c ≠ '/' := by
  induction fuel with
  | zero => intro n ds h c hc; exact h c hc
  | succ fuel ih =>
    intro n ds h c hc
    simp only [Nat.toDigitsCore] at hc
    split at hc
    · rcases List.mem_cons.mp hc with h1 | h1
      · subst h1; exact digitChar_lt_ten_ne_slash _ (Nat.mod_lt _ (by omega))
      · exact h c h1
    · refine ih _ _ ?_ c hc
      intro d hd
      rcases List.mem_cons.mp hd with h1 | h1
      · subst h1; exact digitChar_lt_ten_ne_slash _ (Nat.mod_lt _ (by omega))
      · exact h d h1

theorem toDigitsCore_length_le (fuel : Nat) :
    ∀ (n : Nat) (ds : List Char), ds.length ≤ (Nat.toDigitsCore 10 fuel n ds).length := by
  induction fuel with
  | zero => intro n ds; exact Nat.le_refl _
  | succ fuel ih =>
    intro n ds
    simp only [Nat.toDigitsCore]
    split
    · exact Nat.le_succ _
    · exact Nat.le_trans (Nat.le_succ _) (ih (n / 10) (Nat.digitChar (n % 10) :: ds))

theorem natRepr_data (n : Nat) : (Nat.repr n).data = Nat.toDigitsCore 10 (n + 1) n [] :=
  rfl

theorem natRepr_ne_nil (n : Nat) : (Nat.repr n).data ≠ [] := by
  rw [natRepr_data]
  simp only [Nat.toDigitsCore]
  split
  · simp
  · intro hc
    have hlen := toDigitsCore_length_le n (n / 10) [Nat.digitChar (n % 10)]
    rw [hc] at hlen
    simp at hlen

theorem natRepr_ne_slash (n : Nat) : ∀ c ∈ (Nat.repr n).data, c ≠ '/' := by
  rw [natRepr_data]
  exact toDigitsCore_ne_slash (n + 1) n [] (by simp)

theorem stripTrail_list_spec (p u2 r : List Char) (hp : p ≠ [])
    (hpl : p.getLast? ≠ some '/')
    (h1 : ¬ ['/', '/'] <:+ u2) (h2 : u2 ≠ ['/'])
    (hr : r = if (p ++ '/' :: u2).getLast? = some '/' then (p ++ '/' :: u2).dropLast
              else (p ++ '/' :: u2)) :
    r ≠ [] ∧ r.getLast? ≠ some '/' ∧ p <+: r := by
  rcases List.eq_nil_or_concat u2 with hu | ⟨w, a, hu⟩
  · subst hu
    have hz : p ++ '/' :: ([] : List Char) = p ++ ['/'] := rfl
    rw [hz, List.getLast?_concat, if_pos rfl, List.dropLast_concat] at hr
    rw [hr]
    exact ⟨hp, hpl, List.prefix_refl p⟩
  · rw [List.concat_eq_append] at hu
    subst hu
    have hz : p ++ '/' :: (w ++ [a]) = (p ++ '/' :: w) ++ [a] := by simp
    rw [hz, List.getLast?_concat] at hr
    by_cases ha : a = '/'
    · subst ha
      rw [if_pos rfl, List.dropLast_concat] at hr
      subst hr
      rcases List.eq_nil_or_concat w with hw | ⟨w', b, hw⟩
      · subst hw
        exact absurd (by simp) h2
      · rw [List.concat_eq_append] at hw
        subst hw
        have hb : b ≠ '/' := by
          intro hb
          subst hb
          exact h1 ⟨w', by simp⟩
        have hz2 : p ++ '/' :: (w' ++ [b]) = (p ++ '/' :: w') ++ [b] := by simp
        refine ⟨by simp, ?_, List.prefix_append p _⟩
        rw [hz2, List.getLast?_concat]
        simp [hb]
    · rw [if_neg (by simp [ha])] at hr
      subst hr
      refine ⟨by simp, ?_, ?_⟩
      · rw [List.getLast?_concat]
        simp [ha]
      · rw [List.append_assoc]
        exact List.prefix_append p _

theorem strip_trailing_slash_data (x : String) :
    (strip_trailing_slash x).data =
      if x.data.getLast? = some '/' then x.data.dropLast else x.data := by
  unfold strip_trailing_slash
  split <;> rfl

theorem strip_leading_no_double_slash (e : String)
    (h : ¬ ['/', '/'] <:+ e.data) :
    ¬ ['/', '/'] <:+ (strip_leading_slash e).data ∧
      (strip_leading_slash e).data ≠ ['/'] := by
  unfold strip_leading_slash
  split
  case isTrue hcond =>
    obtain ⟨hlen, hhead⟩ := hcond
    match hd : e.data with
    | [] => rw [hd] at hlen; simp at hlen
    | c :: t =>
      rw [hd] at hhead
      simp only [List.head?_cons, Option.some.injEq] at hhead
      subst hhead
      simp only [List.drop_succ_cons, List.drop_zero]
      constructor
      · intro hsuf
        apply h
        rw [hd]
        exact hsuf.trans (List.suffix_cons '/' t)
      · intro ht
        apply h
        have ht' : t = ['/'] := ht
        rw [hd, ht']
  case isFalse hcond =>
    refine ⟨h, ?_⟩
    intro ht
    exact hcond (by rw [ht]; exact ⟨by simp, rfl⟩)

theorem make_url_host_data (s : MergedConn) :
    ∃ mid, (make_url_host s).data = mid ++ (Nat.repr s.port).data := by
  cases h : s.username with
  | none =>
    exact ⟨(s.host ++ ":").data, by simp [make_url_host, h, strData_append]⟩
  | some u =>
    exact ⟨(u ++ ":" ++ pyStr s.password ++ "@" ++ s.host ++ ":").data,
      by simp [make_url_host, h, strData_append]⟩

theorem compose_strip_spec (proto host endp res : String)
    (hres : res = strip_trailing_slash
      (proto ++ "://" ++ host ++ "/" ++ strip_leading_slash endp))
    (hh : host.data ≠ []) (hl : host.data.getLast? ≠ some '/')
    (he : ¬ ['/', '/'] <:+ endp.data) :
    res.data ≠ [] ∧ res.data.getLast? ≠ some '/' ∧
      (proto ++ "://").data <+: res.data := by
  obtain ⟨h1, h2⟩ := strip_leading_no_double_slash endp he
  have hpform : (proto ++ "://" ++ host).data = (proto ++ "://").data ++ host.data :=
    strData_append _ _
  have hpne : (proto ++ "://" ++ host).data ≠ [] := by
    rw [hpform]
    exact List.append_ne_nil_of_right_ne_nil _ hh
  have hplast : (proto ++ "://" ++ host).data.getLast? ≠ some '/' := by
    rw [List.getLast?_eq_getLast _ hh] at hl
    rw [hpform, List.getLast?_append, List.getLast?_eq_getLast _ hh, Option.or_some]
    exact hl
  have hcomp : (proto ++ "://" ++ host ++ "/" ++ strip_leading_slash endp).data =
      (proto ++ "://" ++ host).data ++ '/' :: (strip_leading_slash endp).data := by
    simp [strData_append, List.append_assoc]
  have hdata : res.data =
      if ((proto ++ "://" ++ host).data ++ '/' :: (strip_leading_slash endp).data).getLast?
         = some '/'
      then ((proto ++ "://" ++ host).data ++ '/' :: (strip_leading_slash endp).data).dropLast
      else ((proto ++ "://" ++ host).data ++ '/' :: (strip_leading_slash endp).data) := by
    rw [hres, strip_trailing_slash_data, hcomp]
  obtain ⟨hne, hlast, hpre⟩ :=
    stripTrail_list_spec _ _ _ hpne hplast h1 h2 hdata
  refine ⟨hne, hlast, ?_⟩
  refine List.IsPrefix.trans ?_ hpre
  rw [hpform]
  exact List.prefix_append _ _

/-! ### Claim theorems -/

/-- C1: the claim says that with settings `{XYZ: {contract: ''}}` and no
fallback entry for `XYZ`, `get_contract('XYZ')` raises
`MissingTokenMetadata`.  In the code, the empty contract falls through to
`self.default_contracts[symbol]` (line 259), whose subscript on the absent
key raises `KeyError`; the surrounding `except (AttributeError,
MissingTokenMetadata)` (line 266) does not catch `KeyError`, so `KeyError`
propagates — contradicting both the claim and the function docstring
(line 243).  This theorem evaluates the code at the failing input. -/
theorem get_contract_empty_contract_keyerror :
    get_contract [("XYZ", { setting_defaults with contract := some "" })]
      [("EOS", "eosio.token")] "XYZ" = .error PyExc.keyError := rfl

/-- C3: the claim says a symbol absent from the resolved settings raises
`TokenNotFound`.  In the code, `self.settings[symbol]` (line 251) on an
absent key raises `KeyError`, and `except AttributeError` (line 254) does
not catch it, so `KeyError` propagates and the `TokenNotFound` branch is
dead code — contradicting the claim and the docstring (line 242).  This
theorem evaluates the code at the failing input (the fallback table even
has an `XYZ` entry, which is never reached). -/
theorem get_contract_absent_symbol_keyerror :
    get_contract [("EOS", setting_defaults)]
      [("XYZ", "some.token"), ("EOS", "eosio.token")] "XYZ" =
      .error PyExc.keyError := rfl

/-- C9: the code does normalize the symbol to uppercase before every
lookup (line 247), so `get_contract('xyz')` behaves as
`get_contract('XYZ')` — first conjunct.  But with no `XYZ` entry anywhere
the result is a propagated `KeyError`, not the `TokenNotFound` the claim
(and the docstring, line 242) promises — second conjunct evaluates the
code at the failing input. -/
theorem get_contract_lowercase_keyerror :
    get_contract [] [("EOS", "eosio.token")] "xyz" =
      get_contract [] [("EOS", "eosio.token")] "XYZ" ∧
    get_contract [] [("EOS", "eosio.token")] "xyz" = .error PyExc.keyError :=
  ⟨rfl, rfl⟩

/-- C4: when the settings entry for the (uppercased) symbol has a
non-empty contract, `get_contract` returns it immediately, whatever the
fallback table holds (first conjunct, `dc` universally quantified); when
the settings entry exists but its contract is absent or empty
(`empty rec.contract = true`) and the fallback table has a non-empty
entry, the fallback value is returned (second conjunct). -/
theorem get_contract_override_priority (settings : List (String × CoinSettings))
    (dc : List (String × String)) (symbol : String) (rec : CoinSettings)
    (hs : List.lookup (pyUpper symbol) settings = some rec) :
    (∀ c, rec.contract = some c → c ≠ "" →
      get_contract settings dc symbol = .ok c) ∧
    (empty rec.contract = true →
      ∀ fb, List.lookup (pyUpper symbol) dc = some fb → fb ≠ "" →
        get_contract settings dc symbol = .ok fb) := by
  constructor
  · intro c hcontract hne
    simp [get_contract, hs, hcontract, empty, hne]
  · intro hemp fb hfb hne
    simp only [get_contract, hs, hemp]
    simp [hfb, empty, hne]

/-- Witness for C4 at concrete inputs: the settings override
`custom.token` wins over the fallback `eosio.token`; with no contract
field in the settings entry the fallback `eosio.token` is returned. -/
theorem get_contract_override_priority_witness :
    get_contract [("EOS", { setting_defaults with contract := some "custom.token" })]
      [("EOS", "eosio.token")] "EOS" = .ok "custom.token" ∧
    get_contract [("EOS", setting_defaults)] [("EOS", "eosio.token")] "EOS" =
      .ok "eosio.token" :=
  ⟨(get_contract_override_priority
      [("EOS", { setting_defaults with contract := some "custom.token" })]
      [("EOS", "eosio.token")] "EOS"
      { setting_defaults with contract := some "custom.token" } rfl).1
      "custom.token" rfl (by decide),
   (get_contract_override_priority [("EOS", setting_defaults)]
      [("EOS", "eosio.token")] "EOS" setting_defaults rfl).2
      rfl "eosio.token" rfl (by decide)⟩

/-- C8: `eos_settings` returns the resolved mapping's entry for the
chain's native coin symbol `EOS` when present, and the static
`setting_defaults` record when absent; being a total function it never
raises. -/
theorem eos_settings_native_or_default (m : List (String × CoinSettings)) :
    (∀ r, List.lookup chain_coin m = some r → eos_settings m = r) ∧
    (List.lookup chain_coin m = none → eos_settings m = setting_defaults) := by
  constructor
  · intro r hr
    simp [eos_settings, hr]
  · intro hr
    simp [eos_settings, hr]

/-- Witness for C8 at concrete inputs: a mapping with an `EOS` entry
returns that entry, the empty mapping returns the defaults. -/
theorem eos_settings_native_or_default_witness :
    eos_settings [("EOS", { setting_defaults with ssl := false })] =
      { setting_defaults with ssl := false } ∧
    eos_settings [] = setting_defaults :=
  ⟨(eos_settings_native_or_default _).1 _ rfl,
   (eos_settings_native_or_default _).2 rfl⟩

/-- C6: two consecutive reads of the `eos` property with no intervening
`replace_eos` return the same pair: the identical cached handle, and the
second read leaves the state unchanged (a cached handle is never rebuilt
because the underlying settings changed — the getter never consults
freshness). -/
theorem eos_second_read_stable (s : EOSState) : eos (eos s).1 = eos s := by
  cases h : s._eos <;> simp [eos, h]

/-- C5: with a cached handle present (the precondition under which
`del self._eos` succeeds — see C7), `replace_eos(**conn)` records
`make_url conn` — `conn` merged over the static `setting_defaults` only,
an expression independent of the resolved chain settings in `s.settings` —
in `current_rpc`, caches the freshly constructed handle, and returns that
handle. -/
theorem replace_eos_cached_spec (conn : ConnOverrides) (s : EOSState) (h : Nat)
    (hc : s._eos = some h) :
    replace_eos conn s =
      ({ s with current_rpc := some (make_url conn), _eos := some s.nextHandle,
                nextHandle := s.nextHandle + 1 }, .ok s.nextHandle) := by
  simp [replace_eos, hc]

/-- Witness for C5 at a concrete state with a cached handle: the new URL
is built from the defaults alone even though the instance's resolved
settings specify a different host. -/
theorem replace_eos_cached_spec_witness :
    replace_eos {}
      { _eos := some 0, current_rpc := some "old", nextHandle := 1,
        settings := [("EOS", { setting_defaults with host := "example.com" })] } =
      ({ _eos := some 1, current_rpc := some "https://eos.greymass.com:443",
         nextHandle := 2,
         settings := [("EOS", { setting_defaults with host := "example.com" })] },
       .ok 1) :=
  replace_eos_cached_spec {} _ 0 rfl

/-- C7: on a freshly constructed mixin (no handle ever cached on the
instance), `replace_eos` fails at `del self._eos` (line 187) with
`AttributeError` — the instance attribute does not exist, only the class
attribute `None` — before any URL is built, leaving `current_rpc` and the
cached-handle state unchanged (first conjunct: the returned state is the
untouched fresh state).  Once a handle exists on the instance, the same
call succeeds (second conjunct). -/
theorem replace_eos_fresh_fails (conn : ConnOverrides)
    (m : List (String × CoinSettings)) :
    replace_eos conn (initState m) = (initState m, .error PyExc.attributeError) ∧
    ∀ (s : EOSState) (h : Nat), s._eos = some h →
      (replace_eos conn s).2 = .ok s.nextHandle := by
  constructor
  · rfl
  · intro s h hc
    simp [replace_eos, hc]

/-- Witness for C7 at concrete inputs: the fresh instance errors, an
instance with a cached handle succeeds. -/
theorem replace_eos_fresh_fails_witness :
    replace_eos {} (initState []) = (initState [], .error PyExc.attributeError) ∧
    (replace_eos {}
      { _eos := some 3, current_rpc := none, nextHandle := 5, settings := [] }).2 =
      .ok 5 :=
  ⟨(replace_eos_fresh_fails {} []).1,
   (replace_eos_fresh_fails {} []).2 _ 3 rfl⟩

/-- C2 counterexample: the claim "the result never ends with a '/'" is
false as stated.  With the override `endpoint='//'` (a subset of the
recognized keys), `_make_url` strips the leading slash, composes
`https://eos.greymass.com:443//`, and strips only a single trailing
slash, leaving a URL that ends with `/`. -/
theorem make_url_trailing_slash_cex :
    make_url { endpoint := some "//" } = "https://eos.greymass.com:443/" ∧
    ("https://eos.greymass.com:443/").data.getLast? = some '/' :=
  ⟨rfl, rfl⟩

/-- C2 (amended): for every partial connection mapping whose merged
endpoint does not end with two consecutive slashes, the `_make_url`
result is non-empty, does not end with a '/' character, and starts with
`https://` when the merged ssl flag is true and with `http://` when it is
false.  (The exclusion of endpoints ending in `//` is forced by
`make_url_trailing_slash_cex`: only a single trailing slash is
stripped.) -/
theorem make_url_shape (conn : ConnOverrides)
    (h : ¬ ['/', '/'] <:+ (mergeConn conn).endpoint.data) :
    make_url conn ≠ "" ∧
    (make_url conn).data.getLast? ≠ some '/' ∧
    ((if (mergeConn conn).ssl then "https://" else "http://") : String).data <+:
      (make_url conn).data := by
  obtain ⟨mid, hmid⟩ := make_url_host_data (mergeConn conn)
  have hh : (make_url_host (mergeConn conn)).data ≠ [] := by
    rw [hmid]
    exact List.append_ne_nil_of_right_ne_nil _ (natRepr_ne_nil _)
  have hl : (make_url_host (mergeConn conn)).data.getLast? ≠ some '/' := by
    rw [hmid, List.getLast?_append,
        List.getLast?_eq_getLast _ (natRepr_ne_nil _), Option.or_some]
    intro hc
    exact natRepr_ne_slash _ _ (List.getLast_mem _) (Option.some.inj hc)
  have hcore := compose_strip_spec
    (if (mergeConn conn).ssl then "https" else "http")
    (make_url_host (mergeConn conn)) (mergeConn conn).endpoint
    (make_url conn) rfl hh hl h
  refine ⟨?_, hcore.2.1, ?_⟩
  · intro he
    exact hcore.1 (congrArg String.data he)
  · have hpre := hcore.2.2
    cases hssl : (mergeConn conn).ssl
    · rw [if_neg (by simp [hssl])]
      rw [if_neg (by simp [hssl])] at hpre
      exact hpre
    · rw [if_pos (by simp [hssl])]
      rw [if_pos (by simp [hssl])] at hpre
      exact hpre

/-- Witness for C2 at the default (empty) override mapping: the default
endpoint `/` does not end in `//`, and the result
`https://eos.greymass.com:443` is non-empty, slash-free at the end, and
carries the `https://` prefix matching the default `ssl=True`. -/
theorem make_url_shape_witness :
    (¬ ['/', '/'] <:+ (mergeConn {}).endpoint.data) ∧
    (make_url {} ≠ "" ∧
     (make_url {}).data.getLast? ≠ some '/' ∧
     ((if (mergeConn {}).ssl then "https://" else "http://") : String).data <+:
       (make_url {}).data) :=
  ⟨by decide, make_url_shape {} (by decide)⟩

theorem lookup_append_single {α : Type} (c : List (String × α)) (k : String) (v : α)
    (h : List.lookup k c = none) : List.lookup k (c ++ [(k, v)]) = some v := by
  induction c with
  | nil => simp [List.lookup]
  | cons p t ih =>
    obtain ⟨k1, v1⟩ := p
    rw [List.cons_append]
    cases hkk : k == k1 with
    | true => simp [List.lookup, hkk] at h
    | false =>
      simp only [List.lookup, hkk] at h ⊢
      exact ih h

/-- C10: whenever `all_coins` returns without raising, its result has an
entry for the chain's native coin symbol `EOS` (first conjunct), even
when the instance's own coin set omits it; in that case the entry comes
from the persistence lookup by `symbol`, or by `symbol_id` on a first
miss, and when both lookups miss, the second `Coin.DoesNotExist`
propagates uncaught (second conjunct). -/
theorem all_coins_includes_native (src : CoinSource)
    (dbSymbol dbSymbolId : String → String → Option Coin) :
    (∀ r, all_coins src dbSymbol dbSymbolId = .ok r →
      (List.lookup chain_coin r).isSome) ∧
    (∀ c0, initialCoins src = .ok c0 → List.lookup chain_coin c0 = none →
      (∀ co, dbSymbol chain_coin chain_type = some co →
        all_coins src dbSymbol dbSymbolId = .ok (c0 ++ [(chain_coin, co)])) ∧
      (dbSymbol chain_coin chain_type = none →
        ∀ co, dbSymbolId chain_coin chain_type = some co →
          all_coins src dbSymbol dbSymbolId = .ok (c0 ++ [(chain_coin, co)])) ∧
      (dbSymbol chain_coin chain_type = none →
        dbSymbolId chain_coin chain_type = none →
          all_coins src dbSymbol dbSymbolId = .error PyExc.doesNotExist)) := by
  constructor
  · intro r hr
    cases hinit : initialCoins src with
    | error e =>
      simp [all_coins, hinit] at hr
    | ok c0 =>
      simp only [all_coins, hinit] at hr
      by_cases hl : (List.lookup chain_coin c0).isSome
      · rw [if_pos hl] at hr
        simp only [Except.ok.injEq] at hr
        subst hr
        exact hl
      · rw [if_neg hl] at hr
        have hlnone : List.lookup chain_coin c0 = none := by
          cases hx : List.lookup chain_coin c0
          · rfl
          · rw [hx] at hl; simp at hl
        cases hS : dbSymbol chain_coin chain_type with
        | some co =>
          simp only [hS, Except.ok.injEq] at hr
          subst hr
          rw [lookup_append_single _ _ _ hlnone]
          rfl
        | none =>
          simp only [hS] at hr
          cases hI : dbSymbolId chain_coin chain_type with
          | some co =>
            simp only [hI, Except.ok.injEq] at hr
            subst hr
            rw [lookup_append_single _ _ _ hlnone]
            rfl
          | none =>
            simp [hI] at hr
  · intro c0 h0 hnone
    refine ⟨?_, ?_, ?_⟩
    · intro co hS
      simp [all_coins, h0, hnone, hS]
    · intro hS co hI
      simp [all_coins, h0, hnone, hS, hI]
    · intro hS hI
      simp [all_coins, h0, hnone, hS, hI]

/-- Witness for C10 at concrete inputs: a loader whose coin set omits
`EOS` gets it injected from the symbol lookup; with the symbol lookup
missing, from the `symbol_id` lookup; with both missing the error
propagates; and the injected result does contain the native entry. -/
theorem all_coins_includes_native_witness :
    all_coins (.coins [("GOLOS", { symbol := "GOLOS", symbol_id := "GOLOS" })])
      (fun _ _ => some { symbol := "EOS", symbol_id := "EOS" }) (fun _ _ => none) =
      .ok ([("GOLOS", { symbol := "GOLOS", symbol_id := "GOLOS" })] ++
        [(chain_coin, { symbol := "EOS", symbol_id := "EOS" })]) ∧
    all_coins (.coins []) (fun _ _ => none)
      (fun _ _ => some { symbol := "EOS", symbol_id := "EOS" }) =
      .ok ([] ++ [(chain_coin, { symbol := "EOS", symbol_id := "EOS" })]) ∧
    all_coins (.coins []) (fun _ _ => none) (fun _ _ => none) =
      .error PyExc.doesNotExist ∧
    (List.lookup chain_coin
      ([("GOLOS", { symbol := "GOLOS", symbol_id := "GOLOS" })] ++
        [(chain_coin, ({ symbol := "EOS", symbol_id := "EOS" } : Coin))])).isSome := by
  have t1 := all_coins_includes_native
    (.coins [("GOLOS", { symbol := "GOLOS", symbol_id := "GOLOS" })])
    (fun _ _ => some { symbol := "EOS", symbol_id := "EOS" }) (fun _ _ => none)
  have t2 := all_coins_includes_native (.coins []) (fun _ _ => none)
    (fun _ _ => some { symbol := "EOS", symbol_id := "EOS" })
  have t3 := all_coins_includes_native (.coins []) (fun _ _ => none) (fun _ _ => none)
  have e1 := (t1.2 _ rfl rfl).1 _ rfl
  exact ⟨e1, (t2.2 _ rfl rfl).2.1 rfl _ rfl, (t3.2 _ rfl rfl).2.2 rfl rfl,
    t1.1 _ e1⟩

end EOSMixin
